import Mathlib

/-!
Verification of the outcome-tree engine of the `overthinker` application
(`src/overthinker.py`): tree model, generator-client parsing and retry loop,
visual collapse pass, and the session controller's state transitions.

Python dict-shaped outcome nodes are modelled by the inductive `ONode`.
A node's `path` field is `Option String` (`none` models a dict with no
`'path'` key, mirroring Python's `node.get('path')` returning `None`).
The transient `collapsed` flag is a `Bool` (Python `False` and a missing
key are behaviourally identical everywhere the flag is read).
-/

inductive ONode : Type where
  | mk (name : String) (description : String) (path : Option String)
       (collapsed : Bool) (children : List ONode)

def ONode.name : ONode → String
  | .mk n _ _ _ _ => n

def ONode.description : ONode → String
  | .mk _ d _ _ _ => d

def ONode.path : ONode → Option String
  | .mk _ _ p _ _ => p

def ONode.collapsed : ONode → Bool
  | .mk _ _ _ c _ => c

def ONode.children : ONode → List ONode
  | .mk _ _ _ _ ch => ch

mutual

/-- Model of `find_node_by_path` (src/overthinker.py lines 167-175):
depth-first search; a node whose `'path'` equals the searched path is
returned, the node itself is checked before its children, children in
order, first match wins. -/
def find_node_by_path (t : ONode) (p : String) : Option ONode :=
  match t with
  | .mk _ _ pa _ ch =>
    if pa = some p then some t
    else find_in_children ch p

def find_in_children (ts : List ONode) (p : String) : Option ONode :=
  match ts with
  | [] => none
  | c :: cs =>
    match find_node_by_path c p with
    | some found => some found
    | none => find_in_children cs p

end

mutual

/-- Model of `find_and_update_node` (src/overthinker.py lines 156-165):
depth-first search in the same order as `find_node_by_path`; on the first
match the node's `children` are replaced by `new_children` and the search
short-circuits.  The Python function mutates in place and returns a Bool;
the model returns the resulting tree together with that Bool. -/
def find_and_update_node (t : ONode) (target : String) (nc : List ONode) :
    ONode × Bool :=
  match t with
  | .mk nm d pa f ch =>
    if pa = some target then (.mk nm d pa f nc, true)
    else
      let r := update_in_children ch target nc
      (.mk nm d pa f r.1, r.2)

def update_in_children (ts : List ONode) (target : String) (nc : List ONode) :
    List ONode × Bool :=
  match ts with
  | [] => ([], false)
  | c :: cs =>
    let r := find_and_update_node c target nc
    if r.2 then (r.1 :: cs, true)
    else
      let rs := update_in_children cs target nc
      (c :: rs.1, rs.2)

end

mutual

/-- Collects every `'path'` value in the tree, used to state the spec's
"paths are unique" hypothesis. -/
def all_paths (t : ONode) : List (Option String) :=
  match t with
  | .mk _ _ p _ ch => p :: all_paths_list ch

def all_paths_list (ts : List ONode) : List (Option String) :=
  match ts with
  | [] => []
  | nd :: nds => all_paths nd ++ all_paths_list nds

end

/-! ### Tree model lemmas -/

mutual

theorem update_not_found (t : ONode) (p : String) (C : List ONode)
    (h : (find_and_update_node t p C).2 = false) :
    find_node_by_path t p = none := by
  match t with
  | .mk nm d pa f ch =>
    by_cases hp : pa = some p
    · simp [find_and_update_node, hp] at h
    · simp only [find_and_update_node, if_neg hp] at h
      simp only [find_node_by_path, if_neg hp]
      exact update_not_found_list ch p C h

theorem update_not_found_list (ts : List ONode) (p : String) (C : List ONode)
    (h : (update_in_children ts p C).2 = false) :
    find_in_children ts p = none := by
  match ts with
  | [] => simp [find_in_children]
  | c :: cs =>
    by_cases hc : (find_and_update_node c p C).2 = true
    · simp [update_in_children, hc] at h
    · simp only [Bool.not_eq_true] at hc
      simp only [update_in_children, hc, if_neg Bool.false_ne_true] at h
      have hnone := update_not_found c p C hc
      simp only [find_in_children, hnone]
      exact update_not_found_list cs p C h

end

mutual

theorem update_then_find (t : ONode) (p : String) (C : List ONode)
    (h : (find_and_update_node t p C).2 = true) :
    ∃ n, find_node_by_path (find_and_update_node t p C).1 p = some n
      ∧ n.children = C := by
  match t with
  | .mk nm d pa f ch =>
    by_cases hp : pa = some p
    · refine ⟨ONode.mk nm d pa f C, ?_, rfl⟩
      simp [find_and_update_node, find_node_by_path, hp]
    · simp only [find_and_update_node, if_neg hp] at h ⊢
      simp only [find_node_by_path, if_neg hp]
      exact update_then_find_list ch p C h

theorem update_then_find_list (ts : List ONode) (p : String) (C : List ONode)
    (h : (update_in_children ts p C).2 = true) :
    ∃ n, find_in_children (update_in_children ts p C).1 p = some n
      ∧ n.children = C := by
  match ts with
  | [] => simp [update_in_children] at h
  | c :: cs =>
    by_cases hc : (find_and_update_node c p C).2 = true
    · obtain ⟨n, hfind, hch⟩ := update_then_find c p C hc
      refine ⟨n, ?_, hch⟩
      simp only [update_in_children, hc, if_pos rfl]
      simp only [find_in_children, hfind]
    · simp only [Bool.not_eq_true] at hc
      simp only [update_in_children, hc, if_neg Bool.false_ne_true] at h ⊢
      obtain ⟨n, hfind, hch⟩ := update_then_find_list cs p C h
      refine ⟨n, ?_, hch⟩
      have hnone := update_not_found c p C hc
      simp only [find_in_children, hnone, hfind]

end

/-- Concrete tree used to witness the round-trip property: a root with the
three generated outcome children `"0"`, `"1"`, `"2"`. -/
def wTree7 : ONode :=
  .mk "interview" "Explore the possible outcomes" (some "root") false
    [.mk "Best Case Scenario" "it goes well" (some "0") false [],
     .mk "Expected Scenario" "it goes fine" (some "1") false [],
     .mk "Worst Case Scenario" "it goes badly" (some "2") false []]

def wKids7 : List ONode :=
  [.mk "prepared" "you feel ready" (some "1-0") false [],
   .mk "nervous" "some jitters" (some "1-1") false []]

/-- C7: for every tree whose node paths are unique and every path `p`
present in the tree (i.e. `find_and_update_node` reports success), after
`find_and_update_node tree p C` a lookup `find_node_by_path` at `p`
returns a node whose children equal `C` (round-trip). -/
theorem c7_update_find_roundtrip (t : ONode) (p : String) (C : List ONode)
    (_hu : (all_paths t).Nodup)
    (hs : (find_and_update_node t p C).2 = true) :
    ∃ n, find_node_by_path (find_and_update_node t p C).1 p = some n
      ∧ n.children = C :=
  update_then_find t p C hs

/-- Witness for C7 at a concrete three-child tree and path `"1"`. -/
theorem c7_update_find_roundtrip_witness :
    ∃ n, find_node_by_path (find_and_update_node wTree7 "1" wKids7).1 "1" = some n
      ∧ n.children = wKids7 :=
  c7_update_find_roundtrip wTree7 "1" wKids7 (by decide) (by rfl)

/-! ### Session controller (src/overthinker.py lines 269-351)

The Streamlit session state is modelled by `SessionState`.  The external
generator boundary is modelled by passing the already-parsed response of
`call_gemini_api` to each transition: `InitResp` is the parsed JSON of an
initial generation (its `tree`/`summary` fields are `none` when the
corresponding key is absent), `ExpandResp` the parsed JSON of an
expansion.  Responses are modelled already node-shaped, since no claim
depends on payloads that are not dict-shaped trees. -/

structure InitResp where
  tree : Option ONode
  summary : Option String

structure ExpandResp where
  children : Option (List ONode)

structure SessionState where
  history : List ONode
  current_tree : Option ONode
  user_scenario : String
  last_clicked_path : Option String
  summary : String

/-- Model of the "Analyze Outcomes" click handler (src/overthinker.py
lines 287-302).  Empty input is rejected with no state change; otherwise
`user_scenario` is stored, and on a response that is a dict containing
`'tree'` the tree is installed, history reset to a single snapshot,
summary stored (default `""`) and the last-clicked path cleared; on any
other outcome (`None` response or missing `'tree'` key) the current tree
is set to `None` and nothing else changes. -/
def submitScenario (s : SessionState) (input : String)
    (resp : Option InitResp) : SessionState :=
  if input = "" then s
  else
    let s1 := { s with user_scenario := input }
    match resp with
    | some r =>
      match r.tree with
      | some t =>
        { s1 with current_tree := some t
                , history := [t]
                , summary := r.summary.getD ""
                , last_clicked_path := none }
      | none => { s1 with current_tree := none }
    | none => { s1 with current_tree := none }

/-- Model of the chart click handler (src/overthinker.py lines 329-351).
The handler runs only when a current tree is present and the click event
carries a non-empty path.  A re-click on the recorded last-clicked path is
ignored; otherwise the last-clicked path is recorded FIRST, then the node
is resolved; a missing node or a node that already has children leads to
no further change; for a leaf, a response that is a dict containing
`'children'` pushes a snapshot of the pre-expansion tree onto history and
applies `find_and_update_node`; any other response changes nothing more
(a warning is shown). -/
def clickNode (s : SessionState) (clicked : String)
    (resp : Option ExpandResp) : SessionState :=
  match s.current_tree with
  | none => s
  | some t =>
    if clicked = "" then s
    else if some clicked = s.last_clicked_path then s
    else
      let s1 := { s with last_clicked_path := some clicked }
      match find_node_by_path t clicked with
      | none => s1
      | some node =>
        if node.children.isEmpty then
          match resp with
          | some r =>
            match r.children with
            | some cs =>
              { s1 with history := s1.history ++ [t]
                      , current_tree := some (find_and_update_node t clicked cs).1 }
            | none => s1
          | none => s1
        else s1

/-- Model of the "Go Back" handler (src/overthinker.py lines 304-310).
The button is rendered only when the history is longer than 1; it pops
the last snapshot, installs a copy of the new top as the current tree and
clears the last-clicked path. -/
def goBack (s : SessionState) : SessionState :=
  if 1 < s.history.length then
    let h := s.history.dropLast
    { s with history := h
           , current_tree := h.getLast?
           , last_clicked_path := none }
  else s

/-! ### Session controller claims -/

/-- Unexpanded root node used in concrete session counterexamples. -/
def leafRoot : ONode := .mk "r" "start" (some "root") false []

def kidA : ONode := .mk "best" "good" (some "root-0") false []

def s1cex : SessionState := ⟨[leafRoot], some leafRoot, "worry", none, ""⟩

/-- C1 counterexample: a successful expansion pushes the PRE-expansion
snapshot and then mutates the current tree, so immediately afterwards the
last history entry differs from the current tree. -/
theorem c1_counterexample :
    (clickNode s1cex "root" (some ⟨some [kidA]⟩)).history.getLast?
      ≠ (clickNode s1cex "root" (some ⟨some [kidA]⟩)).current_tree := by
  intro h
  have h' : some (ONode.mk "r" "start" (some "root") false [])
      = some (ONode.mk "r" "start" (some "root") false [kidA]) := h
  simp at h'

/-- C1 amended: after a successful initial generation and after `goBack`
the last history entry equals the current tree, but after a successful
expansion the last history entry is the pre-expansion snapshot while the
current tree is the updated tree. -/
theorem c1_history_top_after_mutation :
    (∀ (s : SessionState) (input : String) (r : InitResp) (t : ONode),
        input ≠ "" → r.tree = some t →
        (submitScenario s input (some r)).history.getLast?
          = (submitScenario s input (some r)).current_tree)
    ∧ (∀ s : SessionState, 1 < s.history.length →
        (goBack s).history.getLast? = (goBack s).current_tree)
    ∧ (∀ (s : SessionState) (t node : ONode) (clicked : String)
        (cs : List ONode),
        s.current_tree = some t → clicked ≠ "" →
        some clicked ≠ s.last_clicked_path →
        find_node_by_path t clicked = some node → node.children = [] →
        (clickNode s clicked (some ⟨some cs⟩)).history.getLast? = some t
        ∧ (clickNode s clicked (some ⟨some cs⟩)).current_tree
            = some (find_and_update_node t clicked cs).1) := by
  refine ⟨fun s input r t hne hrt => ?_, fun s hlen => ?_,
    fun s t node clicked cs hcur hne hlast hfind hleaf => ?_⟩
  · obtain ⟨rt, rsum⟩ := r
    simp only [InitResp.tree] at hrt
    subst hrt
    simp [submitScenario, if_neg hne]
  · simp [goBack, if_pos hlen]
  · simp only [clickNode]
    rw [hcur]
    simp only [if_neg hne, if_neg hlast]
    rw [hfind]
    simp only [hleaf, List.isEmpty_nil, if_true]
    constructor
    · simp [List.getLast?_concat]
    · trivial

/-- Witness for the amended C1: an expansion on the concrete leaf root
leaves the pre-expansion tree on top of the history. -/
theorem c1_history_top_after_mutation_witness :
    (clickNode s1cex "root" (some ⟨some [kidA]⟩)).history.getLast?
      = some leafRoot
    ∧ (clickNode s1cex "root" (some ⟨some [kidA]⟩)).current_tree
        = some (find_and_update_node leafRoot "root" [kidA]).1 :=
  c1_history_top_after_mutation.2.2 s1cex leafRoot leafRoot "root" [kidA]
    rfl (by decide) (by decide) rfl rfl

def s2cex : SessionState := ⟨[wTree7], some wTree7, "old worry", none, "stay calm"⟩

/-- C2 counterexample: submitting from the Displaying state (a previous
tree exists) and failing all attempts clears the current tree anyway. -/
theorem c2_counterexample :
    (submitScenario s2cex "new worry" none).current_tree = none
    ∧ s2cex.current_tree = some wTree7 :=
  ⟨rfl, rfl⟩

/-- C2 amended: when the initial generation fails after all attempts
(response `None` or missing `'tree'` key) the current tree is ALWAYS
cleared, whether or not a prior tree existed; history, summary and the
last-clicked path are left unchanged and the scenario text keeps the new
input. -/
theorem c2_failure_always_clears_tree (s : SessionState) (input : String)
    (resp : Option InitResp)
    (hne : input ≠ "")
    (hfail : resp = none ∨ ∃ r, resp = some r ∧ r.tree = none) :
    submitScenario s input resp
      = { s with user_scenario := input, current_tree := none } := by
  rcases hfail with hnone | ⟨r, hr, hrt⟩
  · subst hnone
    simp [submitScenario, if_neg hne]
  · subst hr
    obtain ⟨rt, rsum⟩ := r
    simp only [InitResp.tree] at hrt
    subst hrt
    simp [submitScenario, if_neg hne]

/-- Witness for the amended C2 at a concrete Displaying-state session. -/
theorem c2_failure_always_clears_tree_witness :
    submitScenario s2cex "fresh worry" none
      = { s2cex with user_scenario := "fresh worry", current_tree := none } :=
  c2_failure_always_clears_tree s2cex "fresh worry" none (by decide) (Or.inl rfl)

def fiveKids : List ONode :=
  [.mk "k0" "a" (some "root-0") false [],
   .mk "k1" "b" (some "root-1") false [],
   .mk "k2" "c" (some "root-2") false [],
   .mk "k3" "d" (some "root-3") false [],
   .mk "k4" "e" (some "root-4") false []]

def s4cex : SessionState := ⟨[leafRoot], some leafRoot, "w4", none, ""⟩

/-- C4 counterexample: an expansion response whose `children` list has 5
entries is applied anyway — the tree is updated and a history snapshot is
pushed, although the claim says a list outside 2..4 must be rejected. -/
theorem c4_counterexample :
    (clickNode s4cex "root" (some ⟨some fiveKids⟩)).current_tree
      = some (.mk "r" "start" (some "root") false fiveKids)
    ∧ (clickNode s4cex "root" (some ⟨some fiveKids⟩)).history.length = 2 :=
  ⟨rfl, rfl⟩

/-- C4 amended: an expansion result is applied whenever the parsed
response is a dict containing the `'children'` key — no schema or arity
validation of the children list is performed; the update and history push
happen for any length of the list. -/
theorem c4_no_arity_validation (s : SessionState) (t node : ONode)
    (clicked : String) (cs : List ONode)
    (h1 : s.current_tree = some t) (h2 : clicked ≠ "")
    (h3 : some clicked ≠ s.last_clicked_path)
    (h4 : find_node_by_path t clicked = some node)
    (h5 : node.children = []) :
    clickNode s clicked (some ⟨some cs⟩)
      = { s with last_clicked_path := some clicked
               , history := s.history ++ [t]
               , current_tree := some (find_and_update_node t clicked cs).1 } := by
  simp only [clickNode]
  rw [h1]
  simp only [if_neg h2, if_neg h3]
  rw [h4]
  simp only [h5, List.isEmpty_nil, if_true]

/-- Witness for the amended C4 with a one-entry children list. -/
theorem c4_no_arity_validation_witness :
    clickNode s4cex "root" (some ⟨some [kidA]⟩)
      = { s4cex with last_clicked_path := some "root"
                   , history := s4cex.history ++ [leafRoot]
                   , current_tree := some (find_and_update_node leafRoot "root" [kidA]).1 } :=
  c4_no_arity_validation s4cex leafRoot leafRoot "root" [kidA]
    rfl (by decide) (by decide) rfl rfl

def s5cex : SessionState := ⟨[wTree7], some wTree7, "w5", none, ""⟩

/-- C5 counterexample: clicking a path that matches no node still mutates
the session — the last-clicked path is recorded before the lookup. -/
theorem c5_counterexample :
    (clickNode s5cex "9" none).last_clicked_path ≠ s5cex.last_clicked_path := by
  intro h
  have h' : some "9" = (none : Option String) := h
  simp at h'

/-- C5 amended: for a clicked path matching no node in the current tree,
the tree, history and summary are unchanged and the result does not
depend on the generator response (no generation call), but the
last-clicked path IS set to the clicked path (when the click is not the
recorded re-click). -/
theorem c5_missing_path_only_sets_last_clicked (s : SessionState) (t : ONode)
    (clicked : String) (resp : Option ExpandResp)
    (h1 : s.current_tree = some t) (h2 : clicked ≠ "")
    (h3 : some clicked ≠ s.last_clicked_path)
    (h4 : find_node_by_path t clicked = none) :
    clickNode s clicked resp = { s with last_clicked_path := some clicked } := by
  simp only [clickNode]
  rw [h1]
  simp only [if_neg h2, if_neg h3]
  rw [h4]

/-- Witness for the amended C5 at the concrete tree and the absent path
`"9"`. -/
theorem c5_missing_path_only_sets_last_clicked_witness :
    clickNode s5cex "9" none = { s5cex with last_clicked_path := some "9" } :=
  c5_missing_path_only_sets_last_clicked s5cex wTree7 "9" none
    rfl (by decide) (by decide) rfl

def s8cex : SessionState := ⟨[], none, "", none, ""⟩

/-- C8 counterexample: a successful initial submission is not an
expansion, yet it changes the history length (here from 0 to 1, because
the handler resets the history to a single snapshot). -/
theorem c8_counterexample :
    (submitScenario s8cex "w8" (some ⟨some leafRoot, none⟩)).history.length = 1
    ∧ s8cex.history.length = 0 :=
  ⟨rfl, rfl⟩

/-- C8 amended: a successful initial submission RESETS the history to
exactly one snapshot (all other submissions leave it unchanged); apart
from that, the history grows only by the single snapshot appended on a
successful expansion, and shrinks only by exactly one entry via `goBack`,
which is a no-op whenever the history length is at most 1. -/
theorem c8_history_dynamics :
    (∀ (s : SessionState) (input : String) (resp : Option InitResp),
        (submitScenario s input resp).history = s.history
        ∨ (submitScenario s input resp).history.length = 1)
    ∧ (∀ (s : SessionState) (clicked : String) (resp : Option ExpandResp),
        (clickNode s clicked resp).history = s.history
        ∨ ∃ t, s.current_tree = some t
            ∧ (clickNode s clicked resp).history = s.history ++ [t])
    ∧ (∀ s : SessionState, s.history.length ≤ 1 → goBack s = s)
    ∧ (∀ s : SessionState, 1 < s.history.length →
        (goBack s).history.length + 1 = s.history.length) := by
  refine ⟨fun s input resp => ?_, fun s clicked resp => ?_,
    fun s hlen => ?_, fun s hlen => ?_⟩
  · by_cases hi : input = ""
    · left; simp [submitScenario, hi]
    · match resp with
      | none => left; simp [submitScenario, if_neg hi]
      | some ⟨none, rsum⟩ => left; simp [submitScenario, if_neg hi]
      | some ⟨some t, rsum⟩ => right; simp [submitScenario, if_neg hi]
  · match hcur : s.current_tree with
    | none => left; simp [clickNode, hcur]
    | some t =>
      by_cases hcl : clicked = ""
      · left; simp [clickNode, hcur, hcl]
      · by_cases hlast : some clicked = s.last_clicked_path
        · left; simp [clickNode, hcur, if_neg hcl, if_pos hlast]
        · match hfind : find_node_by_path t clicked with
          | none => left; simp [clickNode, hcur, if_neg hcl, if_neg hlast, hfind]
          | some node =>
            by_cases hch : node.children.isEmpty = true
            · match resp with
              | none =>
                left
                simp [clickNode, hcur, if_neg hcl, if_neg hlast, hfind, hch]
              | some ⟨none⟩ =>
                left
                simp [clickNode, hcur, if_neg hcl, if_neg hlast, hfind, hch]
              | some ⟨some cs⟩ =>
                right
                refine ⟨t, rfl, ?_⟩
                simp [clickNode, hcur, if_neg hcl, if_neg hlast, hfind, hch]
            · left
              simp [clickNode, hcur, if_neg hcl, if_neg hlast, hfind, hch]
  · have : ¬ 1 < s.history.length := by omega
    simp [goBack, this]
  · simp only [goBack, if_pos hlen]
    simp [List.length_dropLast]
    omega

/-- Witness for the amended C8: `goBack` is a no-op on a length-1 history
and removes exactly one entry from a length-2 history. -/
theorem c8_history_dynamics_witness :
    goBack s1cex = s1cex
    ∧ (goBack ⟨[wTree7, leafRoot], some leafRoot, "w", none, ""⟩).history.length + 1
        = (⟨[wTree7, leafRoot], some leafRoot, "w", none, ""⟩ : SessionState).history.length :=
  ⟨c8_history_dynamics.2.2.1 s1cex (by decide),
   c8_history_dynamics.2.2.2 ⟨[wTree7, leafRoot], some leafRoot, "w", none, ""⟩ (by decide)⟩

/-! ### Visual state deriver — collapse pass
(src/overthinker.py lines 177-209)

Python's `str.startswith` is modelled at the character level:
`starts_with s p` holds when `p`'s characters are a prefix of `s`'s. -/

def starts_with (s p : String) : Bool := p.data.isPrefixOf s.data

/-- Truthiness of the Python values that can sit in `last_clicked_path`
or `active_child_path`: `None` and `""` are falsy. -/
def truthyStr : Option String → Bool
  | none => false
  | some s => decide (s ≠ "")

/-- Model of the active-child scan (src/overthinker.py lines 186-190):
the first child whose `'path'` (default `""`) is a prefix of the clicked
path contributes its raw `'path'` value (which may be `None`) and the
loop breaks; if no child matches the value stays `None`. -/
def active_child_path (lc : String) (children : List ONode) : Option String :=
  match children.find? (fun c => starts_with lc ((ONode.path c).getD "")) with
  | some c => c.path
  | none => none

def set_collapsed (b : Bool) : ONode → ONode
  | .mk nm d pa _ ch => .mk nm d pa b ch

/-- Model of the flag assignment of `_collapse_nodes_recursively`
(src/overthinker.py lines 192-205) at one node's direct children: if the
computed active child path is truthy, every child whose `'path'` differs
from it is collapsed; otherwise with more than 4 children the earliest
`count-4` are collapsed; otherwise nothing is collapsed. -/
def assign_collapse_flags (lc : Option String) (children : List ONode) :
    List ONode :=
  let acp : Option String :=
    if truthyStr lc then active_child_path (lc.getD "") children else none
  if truthyStr acp then
    children.map (fun c => set_collapsed (decide (c.path ≠ acp)) c)
  else if 4 < children.length then
    children.enum.map
      (fun ic => set_collapsed (decide (ic.1 < children.length - 4)) ic.2)
  else
    children.map (set_collapsed false)

/-- Model of `_collapse_nodes_recursively` (src/overthinker.py lines
177-209): nodes without children are left alone; otherwise every direct
child receives a collapse flag and the pass recurses into every child.
The Python code assigns the flags first and then recurses; the two
commute (the recursion never touches a child's own flag, path, or the
sibling count), so the model recurses first and then assigns. -/
def collapse_nodes_recursively (lc : Option String) : ONode → ONode
  | .mk nm d pa f ch =>
    if ch.isEmpty then .mk nm d pa f ch
    else
      .mk nm d pa f (assign_collapse_flags lc
        (ch.attach.map (fun x => collapse_nodes_recursively lc x.1)))
  decreasing_by
    simp only [ONode.mk.sizeOf_spec]
    have := List.sizeOf_lt_of_mem x.2
    omega

def ch9 : List ONode :=
  [.mk "empty" "" (some "") false [], .mk "other" "" (some "zz") false []]

/-- C9 counterexample: with last-clicked path `"0-1"`, exactly one child
of `ch9` has a path that is a prefix of it (the `""`-path child, since
every string starts with the empty string), yet its sibling is NOT
collapsed: the empty active path is falsy, so the sibling-collapse branch
is skipped and the default all-uncollapsed rule applies. -/
theorem c9_counterexample :
    (List.countP (fun c => starts_with "0-1" ((ONode.path c).getD "")) ch9 = 1)
    ∧ (assign_collapse_flags (some "0-1") ch9).map ONode.collapsed
        = [false, false] := by decide

/-- C9 amended: for every node whose children contain exactly one child
whose path is a prefix of (or equal to) the non-empty last-clicked path,
PROVIDED that child's path is present and non-empty (truthy), that child
is marked uncollapsed and all its siblings are marked collapsed,
regardless of child count. -/
theorem c9_unique_truthy_prefix_child (l p : String) (l1 l2 : List ONode)
    (c : ONode)
    (hl : l ≠ "")
    (hcp : c.path = some p) (hp : p ≠ "")
    (hm : starts_with l p = true)
    (h1 : ∀ x ∈ l1, starts_with l ((ONode.path x).getD "") = false)
    (h2 : ∀ x ∈ l2, starts_with l ((ONode.path x).getD "") = false) :
    assign_collapse_flags (some l) (l1 ++ c :: l2)
      = (l1 ++ c :: l2).map
          (fun x => set_collapsed (! starts_with l ((ONode.path x).getD "")) x) := by
  have hfind : active_child_path l (l1 ++ c :: l2) = some p := by
    rw [active_child_path, List.find?_append]
    rw [List.find?_eq_none.mpr (fun x hx => by simp [h1 x hx])]
    rw [List.find?_cons_of_pos _ (by simp [hcp, hm])]
    simp [hcp]
  have hlc : truthyStr (some l) = true := by simp [truthyStr, hl]
  have hpp : truthyStr (some p) = true := by simp [truthyStr, hp]
  simp only [assign_collapse_flags, hlc, if_true, Option.getD_some, hfind, hpp]
  refine List.map_congr_left ?_
  intro x hx
  rcases List.mem_append.mp hx with hx1 | hx2
  · have hxs := h1 x hx1
    have hxne : x.path ≠ some p := by
      intro hxp
      rw [hxp, Option.getD_some, hm] at hxs
      exact Bool.noConfusion hxs
    simp [hxne, hxs]
  · rcases List.mem_cons.mp hx2 with rfl | hx3
    · simp [hcp, hm]
    · have hxs := h2 x hx3
      have hxne : x.path ≠ some p := by
        intro hxp
        rw [hxp, Option.getD_some, hm] at hxs
        exact Bool.noConfusion hxs
      simp [hxne, hxs]

def bestChild9 : ONode := .mk "Best Case Scenario" "fine" (some "0") false []

def sibs9 : List ONode :=
  [.mk "Expected Scenario" "ok" (some "1") false [],
   .mk "Worst Case Scenario" "bad" (some "2") false []]

/-- Witness for the amended C9: clicked path `"0-1"`, children `"0"`,
`"1"`, `"2"`; child `"0"` stays uncollapsed, its siblings collapse. -/
theorem c9_unique_truthy_prefix_child_witness :
    assign_collapse_flags (some "0-1") ([] ++ bestChild9 :: sibs9)
      = ([] ++ bestChild9 :: sibs9).map
          (fun x => set_collapsed (! starts_with "0-1" ((ONode.path x).getD "")) x) :=
  c9_unique_truthy_prefix_child "0-1" "0" [] sibs9 bestChild9
    (by decide) rfl (by decide) rfl
    (fun x hx => absurd hx (List.not_mem_nil x)) (by decide)

def ch10 : List ONode :=
  [.mk "empty" "" (some "") false [], .mk "genuine" "" (some "0") false []]

/-- C10 counterexample: with last-clicked path `"0"`, the first child of
`ch10` (path `""`) satisfies the prefix test and shadows the genuinely
matching sibling (path `"0"`), but it is NOT selected as the sole
uncollapsed child with its siblings collapsed: the falsy active path
skips the sibling-collapse branch, so nothing at all is collapsed. -/
theorem c10_counterexample :
    starts_with "0" ((ONode.path (ONode.mk "empty" "" (some "") false [])).getD "")
      = true
    ∧ (assign_collapse_flags (some "0") ch10).map ONode.collapsed
        = [false, false] := by decide

/-- C10 amended: a child with a missing or empty `'path'` always
satisfies the active-child prefix test and, when it appears before any
genuinely matching sibling, it wins the scan — but because its path value
is falsy the sibling-collapse branch is NOT taken: the node is flagged
exactly as if no last-clicked path were set (the more-than-4 rule or the
all-uncollapsed default applies instead). -/
theorem c10_falsy_path_child_disables_collapse (l : String) (l1 l2 : List ONode)
    (c : ONode)
    (hl : l ≠ "")
    (hcp : c.path = none ∨ c.path = some "")
    (h1 : ∀ x ∈ l1, starts_with l ((ONode.path x).getD "") = false) :
    starts_with l ((ONode.path c).getD "") = true
    ∧ assign_collapse_flags (some l) (l1 ++ c :: l2)
        = assign_collapse_flags none (l1 ++ c :: l2) := by
  have hgd : (ONode.path c).getD "" = "" := by
    rcases hcp with h | h <;> simp [h]
  constructor
  · simp [hgd, starts_with, List.isPrefixOf_iff_prefix]
  · have hfind : active_child_path l (l1 ++ c :: l2) = c.path := by
      rw [active_child_path, List.find?_append]
      rw [List.find?_eq_none.mpr (fun x hx => by simp [h1 x hx])]
      rw [List.find?_cons_of_pos _
        (by simp [hgd, starts_with, List.isPrefixOf_iff_prefix])]
      rfl
    have hlc : truthyStr (some l) = true := by simp [truthyStr, hl]
    have hfalsy : truthyStr c.path = false := by
      rcases hcp with h | h <;> simp [h, truthyStr]
    have hnone : truthyStr none = false := rfl
    simp [assign_collapse_flags, hlc, hfind, hfalsy, hnone]

/-- Witness for the amended C10: children with paths `""` and `"1"`,
clicked path `"1-0"`; the node is flagged as if nothing had been
clicked. -/
theorem c10_falsy_path_child_disables_collapse_witness :
    starts_with "1-0"
      ((ONode.path (ONode.mk "void" "" (some "") false [])).getD "") = true
    ∧ assign_collapse_flags (some "1-0")
        ([] ++ ONode.mk "void" "" (some "") false []
          :: [ONode.mk "exp" "" (some "1") false []])
        = assign_collapse_flags none
            ([] ++ ONode.mk "void" "" (some "") false []
              :: [ONode.mk "exp" "" (some "1") false []]) :=
  c10_falsy_path_child_disables_collapse "1-0" []
    [ONode.mk "exp" "" (some "1") false []]
    (ONode.mk "void" "" (some "") false [])
    (by decide) (Or.inr rfl) (by decide)

/-! ### Outcome generator client
(src/overthinker.py lines 134-154)

`robust_json_parser` is modelled over character lists.  Python's
`json.loads` is modelled by a fuel-driven recursive-descent parser
(`pRun`/`parseJson`) for the JSON subset the generator is asked for:
objects, arrays, strings (with the common escapes, no `\u` escapes),
integers (no fractions/exponents), booleans and null; the model is at
least as strict as `json.loads` on this subset (whole-string parse, no
trailing commas, no leading zeros). -/

inductive Json : Type where
  | null
  | bool (bv : Bool)
  | num (iv : Int)
  | str (sv : String)
  | arr (items : List Json)
  | obj (kvs : List (String × Json))

def skip_ws : List Char → List Char
  | [] => []
  | ch :: more =>
    if ch = ' ' ∨ ch = '\n' ∨ ch = '\t' ∨ ch = '\r' then skip_ws more
    else ch :: more

def escChar (e : Char) : Option Char :=
  if e = 'n' then some '\n'
  else if e = 't' then some '\t'
  else if e = 'r' then some '\r'
  else if e = '"' ∨ e = '\\' ∨ e = '/' then some e
  else none

def parseStringBody : List Char → Option (String × List Char)
  | [] => none
  | '"' :: rest => some ("", rest)
  | '\\' :: rest =>
    match rest with
    | [] => none
    | e :: rest2 =>
      match escChar e with
      | none => none
      | some c =>
        match parseStringBody rest2 with
        | none => none
        | some (s, r) => some (String.mk (c :: s.data), r)
  | c :: rest =>
    match parseStringBody rest with
    | none => none
    | some (s, r) => some (String.mk (c :: s.data), r)

def digitsVal (ds : List Char) : Nat :=
  ds.foldl (fun a c => 10 * a + (c.toNat - 48)) 0

def parseNatNum : List Char → Option (Nat × List Char)
  | [] => none
  | c :: rest =>
    if c = '0' then
      match rest with
      | [] => some (0, [])
      | d :: _ => if d.isDigit then none else some (0, rest)
    else if c.isDigit then
      some (digitsVal ((c :: rest).takeWhile Char.isDigit),
            (c :: rest).dropWhile Char.isDigit)
    else none

def parseNumber : List Char → Option (Int × List Char)
  | '-' :: rest =>
    match parseNatNum rest with
    | none => none
    | some (n, r) => some (-(n : Int), r)
  | cs =>
    match parseNatNum cs with
    | none => none
    | some (n, r) => some ((n : Int), r)

/-- Parser task: a plain value, the remaining elements of an array, or
the remaining members of an object (accumulators in reverse order). -/
inductive PTask : Type where
  | val
  | elems (acc : List Json)
  | members (acc : List (String × Json))

def pRun : Nat → PTask → List Char → Option (Json × List Char)
  | 0, _, _ => none
  | Nat.succ fuel, PTask.val, cs =>
    let ws := skip_ws cs
    if ws.take 4 = "null".data then some (Json.null, ws.drop 4)
    else if ws.take 4 = "true".data then some (Json.bool true, ws.drop 4)
    else if ws.take 5 = "false".data then some (Json.bool false, ws.drop 5)
    else
    match ws with
    | '"' :: afterQuote =>
      match parseStringBody afterQuote with
      | none => none
      | some (sv, afterStr) => some (Json.str sv, afterStr)
    | '[' :: inner =>
      (match skip_ws inner with
       | ']' :: closing => some (Json.arr [], closing)
       | _nonempty => pRun fuel (PTask.elems []) inner)
    | '\x7b' :: inner =>
      (match skip_ws inner with
       | '\x7d' :: closing => some (Json.obj [], closing)
       | _nonempty => pRun fuel (PTask.members []) inner)
    | other =>
      match parseNumber other with
      | none => none
      | some (n, afterNum) => some (Json.num n, afterNum)
  | Nat.succ fuel, PTask.elems acc, cs =>
    match pRun fuel PTask.val cs with
    | none => none
    | some (v, afterElem) =>
      match skip_ws afterElem with
      | ',' :: afterComma => pRun fuel (PTask.elems (v :: acc)) afterComma
      | ']' :: closing => some (Json.arr (v :: acc).reverse, closing)
      | _badDelim => none
  | Nat.succ fuel, PTask.members acc, cs =>
    match skip_ws cs with
    | '"' :: afterQuote =>
      match parseStringBody afterQuote with
      | none => none
      | some (k, afterKey) =>
        match skip_ws afterKey with
        | ':' :: afterColon =>
          match pRun fuel PTask.val afterColon with
          | none => none
          | some (v, afterVal) =>
            match skip_ws afterVal with
            | ',' :: afterComma => pRun fuel (PTask.members ((k, v) :: acc)) afterComma
            | '\x7d' :: closing => some (Json.obj ((k, v) :: acc).reverse, closing)
            | _badDelim => none
        | _noColon => none
    | _noKey => none

/-- Model of `json.loads` on the generator's JSON subset: the whole
string must be one value, up to surrounding whitespace.  The fuel bound
`2*length+2` dominates the parser's recursion depth (every other
recursive call consumes at least one character). -/
def parseJson (s : String) : Option Json :=
  match pRun (2 * s.data.length + 2) PTask.val s.data with
  | some (v, rest) => if (skip_ws rest).isEmpty then some v else none
  | none => none

/-- Model of the extraction step of `robust_json_parser`
(src/overthinker.py line 135): `re.search` with the greedy pattern of a
brace, anything (DOTALL), and a closing brace matches from the FIRST
opening brace to the LAST closing brace of the whole text, provided the
latter comes after the former; otherwise there is no match. -/
def extract_brace_span (cs : List Char) : Option (List Char) :=
  match cs.findIdx? (fun c => c = '\x7b') with
  | none => none
  | some i =>
    match cs.reverse.findIdx? (fun c => c = '\x7d') with
    | none => none
    | some k =>
      let j := cs.length - 1 - k
      if i < j then some ((cs.drop i).take (j - i + 1)) else none

/-- Model of `robust_json_parser` (src/overthinker.py lines 134-140):
extract the greedy brace span, then structurally parse it; `None` when
either step fails (the Python decode error is caught). -/
def robust_json_parse (text : String) : Option Json :=
  match extract_brace_span text.data with
  | none => none
  | some sub => parseJson (String.mk sub)

/-- Outcome of one `model.generate_content` call at the external
boundary: either an exception (transport failure) or a response text. -/
inductive CallOutcome : Type where
  | failure
  | success (text : String)

/-- Model of the attempt loop of `call_gemini_api` (src/overthinker.py
lines 142-154), the i-th external call outcome given by `outcomes i`: a
successful call immediately returns the parse of its text (whatever that
parse is); an exception retries unless `attempt >= retries`.  The first
argument is fuel, instantiated with `retries + 1` (an upper bound on the
loop's iterations, so the fuel-0 case is never reached). -/
def call_loop (outcomes : Nat → CallOutcome) (retries : Nat) :
    Nat → Nat → Option Json
  | 0, _ => none
  | fuel + 1, attempt =>
    match outcomes attempt with
    | .success text => robust_json_parse text
    | .failure =>
      if retries ≤ attempt then none
      else call_loop outcomes retries fuel (attempt + 1)

def call_gemini_api (outcomes : Nat → CallOutcome) (retries : Nat) :
    Option Json :=
  call_loop outcomes retries (retries + 1) 0

/-- Specification-side description of the retry loop: the text of the
first non-failing call within the attempt window, if any. -/
def first_success_text (outcomes : Nat → CallOutcome) (retries : Nat) :
    Nat → Nat → Option String
  | 0, _ => none
  | fuel + 1, attempt =>
    match outcomes attempt with
    | .success t => some t
    | .failure =>
      if retries ≤ attempt then none
      else first_success_text outcomes retries fuel (attempt + 1)

/-- Outcome sequence whose first call succeeds with unparseable prose and
whose later calls succeed with valid JSON. -/
def out3 : Nat → CallOutcome :=
  fun n => if n = 0 then CallOutcome.success "here is some prose with no json at all"
           else CallOutcome.success "\x7b\"children\": []\x7d"

/-- C3 counterexample: the first attempt's response parses to nothing,
and although the second attempt would return parseable JSON, the call
returns failure immediately — a parse failure does NOT cause a retry
(only an exception from the call does). -/
theorem c3_counterexample :
    call_gemini_api out3 2 = none
    ∧ out3 1 = CallOutcome.success "\x7b\"children\": []\x7d"
    ∧ robust_json_parse "\x7b\"children\": []\x7d"
        = some (Json.obj [("children", Json.arr [])]) :=
  ⟨rfl, rfl, rfl⟩

/-- C3 amended: only a transport error (an exception raised by the
generation call) triggers a retry, up to `retries` retries
(`retries + 1` total attempts, 3 with the default of 2); the text of the
first non-failing call is parsed exactly once and that parse result —
even `None` on a parse failure or on a later missing-key check — is
returned immediately with no further attempt; only when every attempt
raises is `None` returned for exhaustion.  The model is a total
function, so no exception escapes the session. -/
theorem c3_retry_only_on_transport_error (outcomes : Nat → CallOutcome)
    (retries : Nat) :
    call_gemini_api outcomes retries
      = (first_success_text outcomes retries (retries + 1) 0).bind
          robust_json_parse := by
  suffices h : ∀ fuel attempt, call_loop outcomes retries fuel attempt
      = (first_success_text outcomes retries fuel attempt).bind
          robust_json_parse from h (retries + 1) 0
  intro fuel
  induction fuel with
  | zero => intro attempt; rfl
  | succ n ih =>
    intro attempt
    cases ho : outcomes attempt with
    | success t => simp [call_loop, first_success_text, ho]
    | failure =>
      by_cases hr : retries ≤ attempt
      · simp [call_loop, first_success_text, ho, hr]
      · simp [call_loop, first_success_text, ho, hr, ih]

theorem extract_brace_span_concat (a b d : List Char)
    (ha : ∀ x ∈ a, x ≠ '\x7b')
    (hd : ∀ x ∈ d, x ≠ '\x7d')
    (hb1 : b.head? = some '\x7b')
    (hb2 : b.getLast? = some '\x7d') :
    extract_brace_span (a ++ b ++ d) = some b := by
  obtain ⟨b0, btl, rfl⟩ : ∃ x xs, b = x :: xs :=
    List.exists_cons_of_ne_nil (by rintro rfl; simp at hb1)
  obtain rfl : b0 = '\x7b' := by simpa using hb1
  have hbtl : btl ≠ [] := by
    intro h
    subst h
    exact absurd hb2 (by decide)
  have hlen2 : 1 ≤ btl.length := List.length_pos.mpr hbtl
  have hfa : a.findIdx? (fun x => x = '\x7b') = none :=
    List.findIdx?_eq_none_iff.mpr (fun x hx => by simp [ha x hx])
  have hfirst : (a ++ ('\x7b' :: btl) ++ d).findIdx? (fun x => x = '\x7b')
      = some a.length := by
    rw [List.append_assoc, List.findIdx?_append, hfa, List.findIdx?_append]
    rw [List.findIdx?_cons]
    simp
  obtain ⟨ys, hys⟩ : ∃ ys, ('\x7b' :: btl).reverse = '\x7d' :: ys := by
    have hh : ('\x7b' :: btl).reverse.head? = some '\x7d' := by
      rw [List.head?_reverse]; exact hb2
    cases hr : ('\x7b' :: btl).reverse with
    | nil => rw [hr] at hh; simp at hh
    | cons y ys =>
      rw [hr] at hh
      simp only [List.head?_cons, Option.some.injEq] at hh
      exact ⟨ys, by rw [hh]⟩
  have hfd : d.reverse.findIdx? (fun x => x = '\x7d') = none :=
    List.findIdx?_eq_none_iff.mpr
      (fun x hx => by simp [hd x (List.mem_reverse.mp hx)])
  have hsecond : (a ++ ('\x7b' :: btl) ++ d).reverse.findIdx?
      (fun x => x = '\x7d') = some d.length := by
    simp only [List.reverse_append]
    rw [List.findIdx?_append, hfd, List.findIdx?_append, hys,
      List.findIdx?_cons]
    simp
  simp only [extract_brace_span, hfirst, hsecond]
  have hcond : a.length
      < (a ++ ('\x7b' :: btl) ++ d).length - 1 - d.length := by
    simp only [List.length_append, List.length_cons]
    omega
  rw [if_pos hcond]
  congr 1
  have hdrop : (a ++ ('\x7b' :: btl) ++ d).drop a.length
      = ('\x7b' :: btl) ++ d := by
    rw [List.append_assoc]
    exact List.drop_left a _
  rw [hdrop]
  have htake : (a ++ ('\x7b' :: btl) ++ d).length - 1 - d.length
      - a.length + 1 = ('\x7b' :: btl).length := by
    simp only [List.length_append, List.length_cons]
    omega
  rw [htake]
  exact List.take_left _ _

/-- C6 counterexample: the text consists of one top-level JSON object
with leading commentary `"x "` and trailing commentary `" y\x7d"`; the
embedded object parses on its own, but because the trailing commentary
contains a closing brace the greedy span runs to the LAST brace and the
parse fails, so the parser does not extract the first top-level object. -/
theorem c6_counterexample :
    "x \x7b\"a\": 1\x7d y\x7d" = "x " ++ "\x7b\"a\": 1\x7d" ++ " y\x7d"
    ∧ parseJson "\x7b\"a\": 1\x7d" = some (Json.obj [("a", Json.num 1)])
    ∧ robust_json_parse "x \x7b\"a\": 1\x7d y\x7d" = none :=
  ⟨rfl, rfl, rfl⟩

/-- C6 amended: for every response text consisting of one top-level
brace-delimited JSON object surrounded by commentary in which the
leading part contains no opening brace and the trailing part contains no
closing brace, the parser extracts and structurally parses that object;
and for every text where the extraction finds no opening brace at all
(and in general whenever extraction or parse fails) the result is a
failure value, not a crash.  If the commentary itself contains braces on
the wrong side, the greedy span swallows it and the call fails. -/
theorem c6_greedy_extraction :
    (∀ (pre obj post : String) (v : Json),
        (∀ x ∈ pre.data, x ≠ '\x7b') →
        (∀ x ∈ post.data, x ≠ '\x7d') →
        obj.data.head? = some '\x7b' →
        obj.data.getLast? = some '\x7d' →
        parseJson obj = some v →
        robust_json_parse (pre ++ obj ++ post) = some v)
    ∧ (∀ t : String, (∀ x ∈ t.data, x ≠ '\x7b') →
        robust_json_parse t = none) := by
  constructor
  · intro pre obj post v hpre hpost h1 h2 hv
    rw [robust_json_parse]
    have hdata : (pre ++ obj ++ post).data
        = pre.data ++ obj.data ++ post.data := by
      simp [String.data_append]
    rw [hdata, extract_brace_span_concat pre.data obj.data post.data
      hpre hpost h1 h2]
    cases obj with
    | mk data => exact hv
  · intro t ht
    have hnone : t.data.findIdx? (fun c => c = '\x7b') = none :=
      List.findIdx?_eq_none_iff.mpr (fun x hx => by simp [ht x hx])
    simp [robust_json_parse, extract_brace_span, hnone]

/-- Witness for the amended C6 on concrete commentary-wrapped JSON and on
a brace-free text. -/
theorem c6_greedy_extraction_witness :
    robust_json_parse ("note: " ++ "\x7b\"ok\": true\x7d" ++ " end of text")
      = some (Json.obj [("ok", Json.bool true)])
    ∧ robust_json_parse "there are no braces in this text" = none :=
  ⟨c6_greedy_extraction.1 "note: " "\x7b\"ok\": true\x7d" " end of text"
      (Json.obj [("ok", Json.bool true)]) (by decide) (by decide) rfl rfl rfl,
   c6_greedy_extraction.2 "there are no braces in this text" (by decide)⟩
